import Mathlib

/-!
Formal model of the MIRTK Deformable module sources
`src/EulerMethod.cc` and `src/GaussCurvatureConstraint.cc`.

Scalars of the C++ code (`double`) are modelled as real numbers, 3-vectors
(`double[3]`) as the structure `Vec3`, point-data arrays as lists, and the
external collaborators (mesh point set, curvature estimator, smoother,
stopping criterion) as explicit parameters.
-/

noncomputable section

/-! ## Definitions -/

/-! ### 3-vectors (double[3] and vtkMath operations) -/

/-- A 3-vector of reals, modelling a C `double[3]`. -/
@[ext]
structure Vec3 where
  x : ℝ
  y : ℝ
  z : ℝ

namespace Vec3

instance : Zero Vec3 := ⟨⟨0, 0, 0⟩⟩
instance : Add Vec3 := ⟨fun u v => ⟨u.x + v.x, u.y + v.y, u.z + v.z⟩⟩
instance : Sub Vec3 := ⟨fun u v => ⟨u.x - v.x, u.y - v.y, u.z - v.z⟩⟩
instance : Neg Vec3 := ⟨fun v => ⟨-v.x, -v.y, -v.z⟩⟩
instance : SMul ℝ Vec3 := ⟨fun c v => ⟨c * v.x, c * v.y, c * v.z⟩⟩

/-- Dot product, modelling vtkMath::Dot. -/
def dot (u v : Vec3) : ℝ := u.x * v.x + u.y * v.y + u.z * v.z

/-- Squared Euclidean norm. -/
def normSq (v : Vec3) : ℝ := dot v v

/-- Euclidean norm, modelling vtkMath::Norm. -/
def norm (v : Vec3) : ℝ := Real.sqrt (normSq v)

/-- Normalization to unit length, modelling vtkMath::Normalize: the vector is
divided by its norm unless the norm is zero, in which case it is unchanged. -/
def normalize (v : Vec3) : Vec3 :=
  if norm v = 0 then v else (1 / norm v) • v

/-- Sum of a list of vectors by left accumulation, modelling repeated
vtkMath::Add into an accumulator initialized to zero. -/
def lsum (l : List Vec3) : Vec3 := l.foldl (· + ·) 0

end Vec3

/-! ### GaussCurvatureConstraint.cc -/

namespace GaussCurvatureConstraintUtils

/-- S-shaped monotone increasing membership function whose value is in [0, 1]
for x in [a, b]; equivalent to MATLAB's smf. Direct model of
GaussCurvatureConstraintUtils::SShapedMembershipFunction. -/
def SShapedMembershipFunction (x a b : ℝ) : ℝ :=
  if x ≤ a then 0
  else if x ≥ b then 1
  else if x ≤ 0.5 * (a + b) then
    2 * ((x - a) / (b - a)) ^ 2
  else
    1 - 2 * ((x - b) / (b - a)) ^ 2

/-- The curvature-dependent spring-force magnitude `m` computed at lines
123-125 of GaussCurvatureConstraint.cc from the cached Gauss curvature K and
mean curvature H of a point. -/
def forceMagnitude (K H : ℝ) : ℝ :=
  let m := SShapedMembershipFunction |K| 0 0.2
  if H < 0 then m * (1 - SShapedMembershipFunction (-H) 0 0.5)
  else m * SShapedMembershipFunction H 0 1

end GaussCurvatureConstraintUtils

/-- The mesh data read by the curvature term's gradient functor: surface point
positions, the per-point status array, surface normals, the two cached
curvature fields and the edge-table adjacency. All are external collaborator
state (vtkPoints, vtkDataArray, EdgeTable). Out-of-range reads are given
defaults; the status default 1 models a missing (null) status array, which the
code treats as all-active. -/
structure SurfaceMesh where
  points : List Vec3
  status : List ℝ
  normals : List Vec3
  gaussCurvature : List ℝ
  meanCurvature : List ℝ
  adj : ℕ → List ℕ

namespace GaussCurvatureConstraintUtils

/-- Body of GaussCurvatureConstraintUtils::EvaluateGradient::operator() for a
single point: the value written into the term's gradient buffer slot, or zero
(the memset value) when the point is passive or has no adjacent points. The
neighbor sums are the loops at lines 131-137 and 139-144 accumulated by
vtkMath::Add. -/
def EvaluateGradientPoint (mesh : SurfaceMesh) (ptId : ℕ) : Vec3 :=
  if mesh.status.getD ptId 1 = 0 then 0
  else
    let adjPtIds := mesh.adj ptId
    if 0 < adjPtIds.length then
      let K := mesh.gaussCurvature.getD ptId 0
      let H := mesh.meanCurvature.getD ptId 0
      let m := forceMagnitude K H
      let c := mesh.points.getD ptId 0
      let f : Vec3 :=
        if K < 0 then
          let n := mesh.normals.getD ptId 0
          adjPtIds.foldl (fun acc i =>
            let d := mesh.points.getD i 0 - c
            if 0 < Vec3.dot d n then acc + d else acc) 0
        else
          adjPtIds.foldl (fun acc i => acc + (mesh.points.getD i 0 - c)) 0
      (-m) • Vec3.normalize ((1 / (adjPtIds.length : ℝ)) • f)
    else 0

/-- The whole per-term gradient buffer produced by
GaussCurvatureConstraint::EvaluateGradient before the base-class call: the
buffer is memset to zero and the functor writes each point's slot. -/
def EvaluateGradientLocal (mesh : SurfaceMesh) : List Vec3 :=
  (List.range mesh.points.length).map (EvaluateGradientPoint mesh)

open scoped Classical in
/-- The per-point contribution as the specification's words state it: for an
active point with at least one neighbor, sum the neighbor offset vectors
(restricted, when K is negative, to the neighbors whose offset has positive
dot product with the point's surface normal), divide by the neighbor count,
normalize to unit length, and scale by the negated force magnitude; the
contribution is zero when the sum is exactly zero, and passive or
zero-neighbor points contribute zero. -/
def specPointContribution (mesh : SurfaceMesh) (p : ℕ) : Vec3 :=
  if mesh.status.getD p 1 = 0 then 0
  else if mesh.adj p = [] then 0
  else
    let c := mesh.points.getD p 0
    let K := mesh.gaussCurvature.getD p 0
    let H := mesh.meanCurvature.getD p 0
    let offsets : List Vec3 :=
      if K < 0 then
        (mesh.adj p).map fun q =>
          let d := mesh.points.getD q 0 - c
          if 0 < Vec3.dot d (mesh.normals.getD p 0) then d else 0
      else
        (mesh.adj p).map fun q => mesh.points.getD q 0 - c
    let F := Vec3.lsum offsets
    if F = 0 then 0
    else
      let f := (1 / ((mesh.adj p).length : ℝ)) • F
      (-(forceMagnitude K H)) • ((1 / Vec3.norm f) • f)

end GaussCurvatureConstraintUtils

namespace GaussCurvatureConstraint

/-- GaussCurvatureConstraint::Evaluate: zero for an empty mesh, otherwise the
parallel sum-reduction of |K| over all points divided by the point count. -/
def Evaluate (gaussCurvature : List ℝ) : ℝ :=
  if gaussCurvature.length = 0 then 0
  else gaussCurvature.foldl (fun acc K => acc + |K|) 0 / gaussCurvature.length

/-- Modelled from the spec: the base-class additive-accumulation step
(SurfaceConstraint/PointSetForce::EvaluateGradient, whose definition is not
among these sources) adds weight times stepScale times the per-point
contribution into the caller-owned gradient buffer. -/
def baseEvaluateGradient (gradient : List Vec3) (step weight : ℝ)
    (contribution : List Vec3) : List Vec3 :=
  List.zipWith (fun g c => g + (weight * step) • c) gradient contribution

/-- GaussCurvatureConstraint::EvaluateGradient: early return on an empty mesh,
otherwise compute the per-term buffer and forward it to the base class with
the effective scale weight / _NumberOfPoints. -/
def EvaluateGradient (mesh : SurfaceMesh) (gradient : List Vec3)
    (step weight : ℝ) : List Vec3 :=
  if mesh.points.length = 0 then gradient
  else
    baseEvaluateGradient gradient step (weight / (mesh.points.length : ℝ))
      (GaussCurvatureConstraintUtils.EvaluateGradientLocal mesh)

open scoped Classical in
/-- The number of points whose status is nonzero (active). -/
def activePointCount (mesh : SurfaceMesh) : ℕ :=
  ((List.range mesh.points.length).filter fun p => mesh.status.getD p 1 ≠ 0).length

/-- The forwarding step as claim C9 words it: the base additive-accumulation
step invoked with effective scale weight / activePointCount. -/
def EvaluateGradientActiveScaled (mesh : SurfaceMesh) (gradient : List Vec3)
    (step weight : ℝ) : List Vec3 :=
  if mesh.points.length = 0 then gradient
  else
    baseEvaluateGradient gradient step (weight / (activePointCount mesh : ℝ))
      (GaussCurvatureConstraintUtils.EvaluateGradientLocal mesh)

/-- A cached per-point scalar field: values plus the vtk modification
timestamp of its last recomputation. -/
structure ScalarField where
  values : List ℝ
  mtime : ℕ

/-- The state read and written by GaussCurvatureConstraint::Update: the mesh
geometry (abstract), the surface's modification timestamp, the point count,
the two cached curvature fields, and the current value of the global vtk
MTime clock (every Modified() call produces a strictly larger stamp). -/
structure CurvatureCache (G : Type) where
  geom : G
  surfaceMTime : ℕ
  numberOfPoints : ℕ
  gauss : ScalarField
  mean : ScalarField
  now : ℕ

/-- External collaborators of Update: the SurfaceCurvature estimator for each
field and one neighbor-average pass of MeshSmoothing over the geometry. -/
structure CurvatureOracle (G : Type) where
  computeGauss : G → List ℝ
  computeMean : G → List ℝ
  smoothPass : G → List ℝ → List ℝ

/-- GaussCurvatureConstraint::Update: early return on an empty mesh; each of
the two cached fields is stale iff its timestamp is older than the surface's
modification timestamp; stale fields are recomputed by the estimator, smoothed
by exactly two neighbor-average passes (smoother.NumberOfIterations(2)), deep
copied back and stamped (Modified); fresh fields are left untouched. -/
def Update {G : Type} (o : CurvatureOracle G) (s : CurvatureCache G) :
    CurvatureCache G :=
  if s.numberOfPoints = 0 then s
  else
    let staleGauss := s.gauss.mtime < s.surfaceMTime
    let staleMean := s.mean.mtime < s.surfaceMTime
    if staleGauss ∨ staleMean then
      let t := s.now + 1
      { s with
        gauss :=
          if staleGauss then
            ⟨o.smoothPass s.geom (o.smoothPass s.geom (o.computeGauss s.geom)), t⟩
          else s.gauss,
        mean :=
          if staleMean then
            ⟨o.smoothPass s.geom (o.smoothPass s.geom (o.computeMean s.geom)), t⟩
          else s.mean,
        now := t }
    else s

end GaussCurvatureConstraint

/-! ### EulerMethod.cc -/

namespace EulerMethodUtils

/-- EulerMethodUtils::ComputeDisplacements: every gradient 3-vector is scaled
by the precomputed factor -dt / norm. -/
def ComputeDisplacements (gradient : List Vec3) (dt norm : ℝ) : List Vec3 :=
  gradient.map fun g => (-dt / norm) • g

/-- Body of EulerMethodUtils::ClampDisplacements for one node: compare the
squared norm of the displacement against the squared maximum and, if it is
exceeded, scale the vector by sqrt(maximum^2 / norm^2). -/
def ClampDisplacement (max_dx : ℝ) (d : Vec3) : Vec3 :=
  let maximum := max_dx * max_dx
  let norm := Vec3.normSq d
  if maximum < norm then Real.sqrt (maximum / norm) • d else d

/-- EulerMethodUtils::ClampDisplacements over the whole displacement buffer. -/
def ClampDisplacements (max_dx : ℝ) (d : List Vec3) : List Vec3 :=
  d.map (ClampDisplacement max_dx)

end EulerMethodUtils

/-- Modelled from the spec: DeformableSurfaceModel::GradientNorm (whose
definition is not among these sources) returns the Euclidean norm of the
whole gradient vector. -/
def DeformableSurfaceModelGradientNorm (gradient : List Vec3) : ℝ :=
  Real.sqrt ((gradient.map Vec3.normSq).sum)

namespace EulerMethod

/-- EulerMethod::GradientNorm: with step-length normalization the model's
gradient norm floored at the strictly positive fallback 1.0, without it the
reciprocal of the mesh point count. The model's norm is passed in as the
value of the external call _Model->GradientNorm(_Gradient). -/
def GradientNorm (normalizeStepLength : Bool) (modelGradientNorm : ℝ)
    (numberOfPoints : ℕ) : ℝ :=
  if normalizeStepLength then
    if 0 < modelGradientNorm then modelGradientNorm else 1
  else
    1 / (numberOfPoints : ℝ)

/-- EulerMethod::TruncateDisplacement: derive the effective maximum from the
configured maximum displacement, the normalization flag and the step length,
and run the clamp pass exactly when forced, normalization is off, or the
effective maximum is below the step length. -/
def TruncateDisplacement (force normalizeStepLength : Bool)
    (maximumDisplacement stepLength : ℝ) (displacement : List Vec3) :
    List Vec3 :=
  let max_dx :=
    if maximumDisplacement ≤ 0 then (if normalizeStepLength then stepLength else 1)
    else maximumDisplacement
  if force = true ∨ normalizeStepLength = false ∨ max_dx < stepLength then
    EulerMethodUtils.ClampDisplacements max_dx displacement
  else displacement

/-- The optimizer's configuration. The field defaults mirror the EulerMethod
constructor (step length 1.0, normalization on, maximum displacement unset,
epsilon 1e-9); epsilon is the convergence epsilon of the spec, the minimum
realized displacement below which the integration has stalled (the threshold
member itself is declared in the LocalOptimizer base class, which is not
among these sources, and is modelled from the spec). -/
structure Config where
  stepLength : ℝ := 1
  normalizeStepLength : Bool := true
  maximumDisplacement : ℝ := 0
  epsilon : ℝ := 1e-9
  numberOfSteps : ℕ := 100
  trackNormalDisplacement : Bool := false

/-- The deformable surface model collaborator: remeshing (returns whether the
topology changed), post-step update, gradient aggregation, gradient norm,
point count, the stepping operation (returns the realized maximum
displacement) and scalar value evaluation. -/
structure ModelOps (M : Type) where
  remesh : M → M × Bool
  update : M → M
  gradient : M → List Vec3
  gradNorm : M → List Vec3 → ℝ
  numberOfPoints : M → ℕ
  stepOp : M → List Vec3 → M × ℝ
  value : M → ℝ

/-- Observable collaborator calls of one Run, in program order. Displacement
kernels are pure buffer computations and emit no event. -/
inductive Ev
  | remesh
  | modelUpdate
  | gradEval
  | stepEv
  | normalTrack
  | valueEval
  | convTest
deriving DecidableEq

/-- Terminal states of the optimization loop. -/
inductive ExitState
  | Converged
  | MaxIterationsReached
  | DegenerateStep
deriving DecidableEq

/-- The mutable state of Run across iterations: the model, the last energy
value and _LastDelta. -/
structure RunState (M : Type) where
  model : M
  value : ℝ
  lastDelta : ℝ

/-- EulerMethod::RemeshModel: remesh, and on topology change re-run the model
update. (Buffer reallocation has no separate observable effect here because
buffers are recomputed values.) -/
def RemeshModel {M : Type} (ops : ModelOps M) (m : M) : M × List Ev :=
  let r := ops.remesh m
  if r.2 then (ops.update r.1, [Ev.remesh, Ev.modelUpdate]) else (r.1, [Ev.remesh])

/-- The remeshing prologue of one iteration of Run: local adaptive remeshing
happens only from the second iteration on. -/
def remeshPhase {M : Type} (ops : ModelOps M) (i : ℕ) (m : M) : M × List Ev :=
  if 1 < i then RemeshModel ops m else (m, [])

/-- EulerMethod::UpdateDisplacement: compute the displacements from the
gradient, the step length and GradientNorm(), then truncate them (force
defaults to false). -/
def UpdateDisplacement (cfg : Config) (modelNorm : ℝ) (numPoints : ℕ)
    (gradient : List Vec3) : List Vec3 :=
  TruncateDisplacement false cfg.normalizeStepLength cfg.maximumDisplacement
    cfg.stepLength
    (EulerMethodUtils.ComputeDisplacements gradient cfg.stepLength
      (GradientNorm cfg.normalizeStepLength modelNorm numPoints))

/-- The model state and realized maximum displacement returned by the stepping
operation of iteration i of Run, for the displacement buffer the iteration
computed. -/
def realizedStep {M : Type} (ops : ModelOps M) (cfg : Config) (i : ℕ)
    (s : RunState M) : M × ℝ :=
  let m1 := (remeshPhase ops i s.model).1
  let g := ops.gradient m1
  ops.stepOp m1 (UpdateDisplacement cfg (ops.gradNorm m1 g) (ops.numberOfPoints m1) g)

/-- One iteration of the while loop of EulerMethod::Run: remesh (from the
second iteration), aggregate the gradient, compute and truncate displacements,
step the model, and either exit on a degenerate step, or update the model,
track normal displacement, recompute the value and test the stopping
criterion. The IsInf guard on the previous value is vacuous in the
real-valued model, so the value is always recomputed. -/
def iterBody {M : Type} (ops : ModelOps M) (cfg : Config)
    (conv : ℕ → ℝ → ℝ → List Vec3 → Bool) (i : ℕ) (s : RunState M) :
    RunState M × List Ev × Option ExitState :=
  let rp := remeshPhase ops i s.model
  let m1 := rp.1
  let g := ops.gradient m1
  let d := UpdateDisplacement cfg (ops.gradNorm m1 g) (ops.numberOfPoints m1) g
  let sr := ops.stepOp m1 d
  let evs := rp.2 ++ [Ev.gradEval, Ev.stepEv]
  if sr.2 ≤ cfg.epsilon then
    (⟨sr.1, s.value, sr.2⟩, evs, some ExitState.DegenerateStep)
  else
    let m3 := ops.update sr.1
    let evs2 := evs ++ [Ev.modelUpdate] ++
      (if cfg.trackNormalDisplacement then [Ev.normalTrack] else [])
    let v := ops.value m3
    let evs3 := evs2 ++ [Ev.valueEval, Ev.convTest]
    if conv i s.value v d then (⟨m3, v, sr.2⟩, evs3, some ExitState.Converged)
    else (⟨m3, v, sr.2⟩, evs3, none)

/-- The while loop of EulerMethod::Run, iterating iterBody with the iteration
counter starting at 1 and at most fuel = _NumberOfSteps iterations; exhausting
the fuel terminates in MaxIterationsReached. -/
def runLoop {M : Type} (ops : ModelOps M) (cfg : Config)
    (conv : ℕ → ℝ → ℝ → List Vec3 → Bool) :
    ℕ → ℕ → RunState M → RunState M × List Ev × ExitState
  | 0, _, s => (s, [], ExitState.MaxIterationsReached)
  | fuel + 1, i, s =>
    match iterBody ops cfg conv i s with
    | (s', evs, some e) => (s', evs, e)
    | (s', evs, none) =>
      let r := runLoop ops cfg conv fuel (i + 1) s'
      (r.1, evs ++ r.2.1, r.2.2)

/-- EulerMethod::Run: initial remeshing, initial model update, initial value,
then the iteration loop. -/
def Run {M : Type} (ops : ModelOps M) (cfg : Config)
    (conv : ℕ → ℝ → ℝ → List Vec3 → Bool) (m0 : M) :
    RunState M × List Ev × ExitState :=
  let rm := RemeshModel ops m0
  let m1 := ops.update rm.1
  let v0 := ops.value m1
  let r := runLoop ops cfg conv cfg.numberOfSteps 1 ⟨m1, v0, 0⟩
  (r.1, rm.2 ++ [Ev.modelUpdate, Ev.valueEval] ++ r.2.1, r.2.2)

/-- The heap-allocated node-vector state of an EulerMethod object: the DOF
count and the Gradient and Displacement buffers, with none modelling an
unallocated (NULL) pointer. -/
structure Buffers where
  numberOfDOFs : ℕ
  gradient : Option (List ℝ)
  displacement : Option (List ℝ)

/-- A memcpy of n doubles: defined only when source and destination are both
allocated and large enough; none models a copy through an unallocated or
too-small buffer (undefined behaviour in the C++ code). -/
def memcpyBuf (dst src : Option (List ℝ)) (n : ℕ) : Option (List ℝ) :=
  match dst, src with
  | some d, some s =>
    if n ≤ d.length ∧ n ≤ s.length then some (s.take n ++ d.drop n) else none
  | _, _ => none

/-- Allocate n doubles (contents indeterminate; zeros here). -/
def allocate (n : ℕ) : Option (List ℝ) := some (List.replicate n 0)

/-- EulerMethod::CopyAttributes. The scalar member copies at lines 128-132
include the assignment _NumberOfDOFs = other._NumberOfDOFs, so when the size
test at line 134 runs, _NumberOfDOFs has already been overwritten with the
source value and its first disjunct is always false; reallocation therefore
happens only when the source DOF count is zero, and the memcpy at lines
143-144 runs on whatever buffers the target already had. -/
def CopyAttributes (this other : Buffers) : Option Buffers :=
  let n := other.numberOfDOFs
  let b : Buffers :=
    if n ≠ other.numberOfDOFs ∨ other.numberOfDOFs = 0 then
      { numberOfDOFs := n,
        gradient := if 0 < n then allocate n else none,
        displacement := if 0 < n then allocate n else none }
    else { this with numberOfDOFs := n }
  if 0 < n then
    match memcpyBuf b.gradient other.gradient n,
        memcpyBuf b.displacement other.displacement n with
    | some gr, some di => some { b with gradient := some gr, displacement := some di }
    | _, _ => none
  else some b

/-- The copy constructor: the member initializers set _Gradient and
_Displacement to NULL, then CopyAttributes runs. -/
def copyConstruct (other : Buffers) : Option Buffers :=
  CopyAttributes { numberOfDOFs := 0, gradient := none, displacement := none } other

end EulerMethod

/-! ### Concrete fixtures -/

/-- A two-point mesh whose first point is active with one neighbor, with
K = -0.3 and H = -0.2 at that point and the neighbor on the outward side. -/
def singleNeighborMesh : SurfaceMesh where
  points := [⟨0, 0, 0⟩, ⟨1, 0, 0⟩]
  status := [1, 1]
  normals := [⟨1, 0, 0⟩, ⟨1, 0, 0⟩]
  gaussCurvature := [-0.3, 0]
  meanCurvature := [-0.2, 0]
  adj := fun p => if p = 0 then [1] else []

/-- A two-point mesh with one active and one passive point; the active point
has full force magnitude (K = 0.3, H = 2) and one neighbor. -/
def halfPassiveMesh : SurfaceMesh where
  points := [⟨0, 0, 0⟩, ⟨1, 0, 0⟩]
  status := [1, 0]
  normals := [⟨1, 0, 0⟩, ⟨1, 0, 0⟩]
  gaussCurvature := [0.3, 0]
  meanCurvature := [2, 0]
  adj := fun p => if p = 0 then [1] else if p = 1 then [0] else []

/-- A trivial deformable surface model over a unit state whose stepping
operation realizes a zero displacement. -/
def trivOps : EulerMethod.ModelOps Unit where
  remesh := fun _ => ((), false)
  update := fun _ => ()
  gradient := fun _ => []
  gradNorm := fun _ _ => 0
  numberOfPoints := fun _ => 1
  stepOp := fun _ _ => ((), 0)
  value := fun _ => 0

/-- The default optimizer configuration. -/
def trivCfg : EulerMethod.Config := {}

/-- A trivial curvature estimator and smoother over a unit geometry. -/
def trivCurvOracle : GaussCurvatureConstraint.CurvatureOracle Unit where
  computeGauss := fun _ => [1]
  computeMean := fun _ => [2]
  smoothPass := fun _ l => l

/-- A cache state whose Gauss field is stale (timestamp 0 older than the
surface's timestamp 5) and whose mean field is fresh (timestamp 9), with the
global clock at 7. -/
def staleGaussCache : GaussCurvatureConstraint.CurvatureCache Unit where
  geom := ()
  surfaceMTime := 5
  numberOfPoints := 1
  gauss := ⟨[0], 0⟩
  mean := ⟨[0], 9⟩
  now := 7

end

/-! ## Auxiliary lemmas -/

namespace Vec3

@[simp] theorem zero_x : (0 : Vec3).x = 0 := rfl
@[simp] theorem zero_y : (0 : Vec3).y = 0 := rfl
@[simp] theorem zero_z : (0 : Vec3).z = 0 := rfl
@[simp] theorem add_x (u v : Vec3) : (u + v).x = u.x + v.x := rfl
@[simp] theorem add_y (u v : Vec3) : (u + v).y = u.y + v.y := rfl
@[simp] theorem add_z (u v : Vec3) : (u + v).z = u.z + v.z := rfl
@[simp] theorem sub_x (u v : Vec3) : (u - v).x = u.x - v.x := rfl
@[simp] theorem sub_y (u v : Vec3) : (u - v).y = u.y - v.y := rfl
@[simp] theorem sub_z (u v : Vec3) : (u - v).z = u.z - v.z := rfl
@[simp] theorem smul_x (c : ℝ) (v : Vec3) : (c • v).x = c * v.x := rfl
@[simp] theorem smul_y (c : ℝ) (v : Vec3) : (c • v).y = c * v.y := rfl
@[simp] theorem smul_z (c : ℝ) (v : Vec3) : (c • v).z = c * v.z := rfl

@[simp] theorem smul_zero' (c : ℝ) : c • (0 : Vec3) = 0 := by
  ext <;> simp

@[simp] theorem one_smul' (v : Vec3) : (1 : ℝ) • v = v := by
  ext <;> simp

@[simp] theorem add_zero' (v : Vec3) : v + 0 = v := by
  ext <;> simp

@[simp] theorem zero_add' (v : Vec3) : 0 + v = v := by
  ext <;> simp

theorem add_assoc' (u v w : Vec3) : u + v + w = u + (v + w) := by
  ext <;> simp <;> ring

theorem smul_smul' (c d : ℝ) (v : Vec3) : c • d • v = (c * d) • v := by
  ext <;> simp <;> ring

theorem normSq_nonneg (v : Vec3) : 0 ≤ normSq v := by
  unfold normSq dot; nlinarith [sq_nonneg v.x, sq_nonneg v.y, sq_nonneg v.z]

theorem normSq_eq_zero_iff (v : Vec3) : normSq v = 0 ↔ v = 0 := by
  constructor
  · intro h
    unfold normSq dot at h
    have hx : v.x = 0 := by nlinarith [sq_nonneg v.x, sq_nonneg v.y, sq_nonneg v.z]
    have hy : v.y = 0 := by nlinarith [sq_nonneg v.x, sq_nonneg v.y, sq_nonneg v.z]
    have hz : v.z = 0 := by nlinarith [sq_nonneg v.x, sq_nonneg v.y, sq_nonneg v.z]
    ext <;> simp [hx, hy, hz]
  · intro h; subst h; unfold normSq dot; simp

theorem norm_nonneg' (v : Vec3) : 0 ≤ norm v := Real.sqrt_nonneg _

theorem norm_eq_zero_iff (v : Vec3) : norm v = 0 ↔ v = 0 := by
  unfold norm
  rw [Real.sqrt_eq_zero (normSq_nonneg v)]
  exact normSq_eq_zero_iff v

theorem normSq_smul (c : ℝ) (v : Vec3) : normSq (c • v) = c ^ 2 * normSq v := by
  unfold normSq dot; simp; ring

theorem sq_norm (v : Vec3) : norm v ^ 2 = normSq v :=
  Real.sq_sqrt (normSq_nonneg v)

@[simp] theorem normalize_zero : normalize (0 : Vec3) = 0 := by
  unfold normalize
  rw [if_pos ((norm_eq_zero_iff 0).mpr rfl)]

theorem norm_smul' (c : ℝ) (v : Vec3) : norm (c • v) = |c| * norm v := by
  unfold norm
  rw [normSq_smul, Real.sqrt_mul (sq_nonneg c), Real.sqrt_sq_eq_abs]

theorem normalize_smul_pos {c : ℝ} (hc : 0 < c) (v : Vec3) :
    normalize (c • v) = normalize v := by
  by_cases hv : v = 0
  · subst hv; simp
  · have hn : norm v ≠ 0 := fun h => hv ((norm_eq_zero_iff v).mp h)
    have hcn : norm (c • v) = c * norm v := by
      rw [norm_smul', abs_of_pos hc]
    have hcn0 : norm (c • v) ≠ 0 := by
      rw [hcn]; exact mul_ne_zero (ne_of_gt hc) hn
    unfold normalize
    rw [if_neg hcn0, if_neg hn, hcn, smul_smul']
    congr 1
    field_simp

@[simp] theorem lsum_nil : lsum ([] : List Vec3) = 0 := rfl

theorem lsum_singleton (v : Vec3) : lsum [v] = v := by
  unfold lsum
  simp only [List.foldl]
  exact zero_add' v

theorem foldl_add_shift (l : List Vec3) (acc : Vec3) :
    l.foldl (· + ·) acc = acc + l.foldl (· + ·) 0 := by
  induction l generalizing acc with
  | nil => simp
  | cons v l ih =>
    rw [List.foldl_cons, List.foldl_cons, ih, ih (0 + v), zero_add', add_assoc']

theorem lsum_cons (v : Vec3) (l : List Vec3) : lsum (v :: l) = v + lsum l := by
  unfold lsum
  rw [List.foldl_cons, foldl_add_shift, zero_add']

theorem foldl_add_map_eq {α : Type} (l : List α) (g : α → Vec3) (acc : Vec3) :
    l.foldl (fun a i => a + g i) acc = acc + lsum (l.map g) := by
  induction l generalizing acc with
  | nil => simp [lsum]
  | cons v l ih =>
    rw [List.foldl_cons, ih, List.map_cons, lsum_cons, add_assoc']

theorem foldl_condAdd_map_eq {α : Type} (l : List α) (g : α → Vec3)
    (p : α → Prop) [DecidablePred p] (acc : Vec3) :
    l.foldl (fun a i => if p i then a + g i else a) acc
      = acc + lsum (l.map fun i => if p i then g i else 0) := by
  induction l generalizing acc with
  | nil => simp [lsum]
  | cons v l ih =>
    rw [List.foldl_cons, List.map_cons, lsum_cons]
    by_cases hp : p v
    · rw [if_pos hp, if_pos hp, ih, add_assoc']
    · rw [if_neg hp, if_neg hp, ih, zero_add']

end Vec3

namespace GaussCurvatureConstraintUtils

theorem smf_of_le {x a b : ℝ} (h : x ≤ a) : SShapedMembershipFunction x a b = 0 := by
  unfold SShapedMembershipFunction; rw [if_pos h]

theorem smf_of_ge {x a b : ℝ} (ha : a < x) (h : b ≤ x) :
    SShapedMembershipFunction x a b = 1 := by
  unfold SShapedMembershipFunction
  rw [if_neg (not_le.mpr ha), if_pos h]

theorem smf_easeIn {x a b : ℝ} (ha : a < x) (hb : x < b) (h : x ≤ 0.5 * (a + b)) :
    SShapedMembershipFunction x a b = 2 * ((x - a) / (b - a)) ^ 2 := by
  unfold SShapedMembershipFunction
  rw [if_neg (not_le.mpr ha), if_neg (not_le.mpr hb), if_pos h]

theorem smf_easeOut {x a b : ℝ} (ha : a < x) (hb : x < b) (h : 0.5 * (a + b) < x) :
    SShapedMembershipFunction x a b = 1 - 2 * ((x - b) / (b - a)) ^ 2 := by
  unfold SShapedMembershipFunction
  rw [if_neg (not_le.mpr ha), if_neg (not_le.mpr hb), if_neg (not_le.mpr h)]

theorem easeIn_bounds {a b x : ℝ} (hab : a < b) (ha : a ≤ x) (hm : x ≤ 0.5 * (a + b)) :
    0 ≤ 2 * ((x - a) / (b - a)) ^ 2 ∧ 2 * ((x - a) / (b - a)) ^ 2 ≤ 1 / 2 := by
  have hba : (0 : ℝ) < b - a := by linarith
  have h0 : 0 ≤ (x - a) / (b - a) := div_nonneg (by linarith) hba.le
  have h1 : (x - a) / (b - a) ≤ 1 / 2 := by
    rw [div_le_iff hba]; linarith
  exact ⟨by positivity, by nlinarith [h0, h1]⟩

theorem easeOut_bounds {a b x : ℝ} (hab : a < b) (hm : 0.5 * (a + b) ≤ x) (hb : x ≤ b) :
    1 / 2 ≤ 1 - 2 * ((x - b) / (b - a)) ^ 2 ∧ 1 - 2 * ((x - b) / (b - a)) ^ 2 ≤ 1 := by
  have hba : (0 : ℝ) < b - a := by linarith
  have h0 : (x - b) / (b - a) ≤ 0 := by
    rw [div_le_iff hba]; nlinarith
  have h1 : -(1 / 2) ≤ (x - b) / (b - a) := by
    rw [le_div_iff hba]; nlinarith
  exact ⟨by nlinarith [h0, h1], by nlinarith [sq_nonneg ((x - b) / (b - a))]⟩

theorem smf_nonneg {a b : ℝ} (hab : a < b) (x : ℝ) :
    0 ≤ SShapedMembershipFunction x a b := by
  unfold SShapedMembershipFunction
  split_ifs with h1 h2 h3
  · exact le_rfl
  · exact zero_le_one
  · positivity
  · push_neg at h1 h2 h3
    have := (easeOut_bounds hab h3.le h2.le).1
    linarith

theorem smf_le_one {a b : ℝ} (hab : a < b) (x : ℝ) :
    SShapedMembershipFunction x a b ≤ 1 := by
  unfold SShapedMembershipFunction
  split_ifs with h1 h2 h3
  · exact zero_le_one
  · exact le_rfl
  · push_neg at h1 h2
    have := (easeIn_bounds hab h1.le h3).2
    linarith
  · push_neg at h1 h2 h3
    exact (easeOut_bounds hab h3.le h2.le).2

theorem smf_monotone {a b : ℝ} (hab : a < b) :
    Monotone fun x => SShapedMembershipFunction x a b := by
  intro x y hxy
  have hba : (0 : ℝ) < b - a := by linarith
  simp only
  rcases le_or_lt x a with hxa | hxa
  · rw [smf_of_le hxa]
    exact smf_nonneg hab y
  · rcases le_or_lt b x with hbx | hbx
    · rw [smf_of_ge hxa hbx, smf_of_ge (lt_of_lt_of_le hxa hxy) (le_trans hbx hxy)]
    · rcases le_or_lt x (0.5 * (a + b)) with hxm | hxm
      · rw [smf_easeIn hxa hbx hxm]
        rcases le_or_lt b y with hby | hby
        · rw [smf_of_ge (lt_of_lt_of_le hxa hxy) hby]
          have := (easeIn_bounds hab hxa.le hxm).2
          linarith
        · rcases le_or_lt y (0.5 * (a + b)) with hym | hym
          · rw [smf_easeIn (lt_of_lt_of_le hxa hxy) hby hym]
            have ht0 : 0 ≤ (x - a) / (b - a) := div_nonneg (by linarith) hba.le
            have hle : (x - a) / (b - a) ≤ (y - a) / (b - a) :=
              (div_le_div_right hba).mpr (by linarith)
            have := pow_le_pow_left ht0 hle 2
            linarith
          · rw [smf_easeOut (lt_of_lt_of_le hxa hxy) hby hym]
            have h1 := (easeIn_bounds hab hxa.le hxm).2
            have h2 := (easeOut_bounds hab hym.le hby.le).1
            linarith
      · rw [smf_easeOut hxa hbx hxm]
        rcases le_or_lt b y with hby | hby
        · rw [smf_of_ge (lt_of_lt_of_le hxa hxy) hby]
          nlinarith [sq_nonneg ((x - b) / (b - a))]
        · have hym : 0.5 * (a + b) < y := lt_of_lt_of_le hxm hxy
          rw [smf_easeOut (lt_of_lt_of_le hxa hxy) hby hym]
          have hs : (x - b) / (b - a) ≤ (y - b) / (b - a) :=
            (div_le_div_right hba).mpr (by linarith)
          have hsy : (y - b) / (b - a) ≤ 0 := by
            rw [div_le_iff hba]; nlinarith
          have hsx : (x - b) / (b - a) ≤ 0 := by
            rw [div_le_iff hba]; nlinarith
          nlinarith [hs, hsy, hsx]

theorem smf_continuous {a b : ℝ} (hab : a < b) :
    Continuous fun x => SShapedMembershipFunction x a b := by
  have hba : (0 : ℝ) < b - a := by linarith
  have hc1 : Continuous fun x : ℝ => 2 * ((x - a) / (b - a)) ^ 2 :=
    continuous_const.mul (((continuous_id.sub continuous_const).div_const _).pow 2)
  have hc2 : Continuous fun x : ℝ => 1 - 2 * ((x - b) / (b - a)) ^ 2 :=
    continuous_const.sub
      (continuous_const.mul (((continuous_id.sub continuous_const).div_const _).pow 2))
  have hinner : Continuous fun x : ℝ =>
      if x ≤ 0.5 * (a + b) then 2 * ((x - a) / (b - a)) ^ 2
      else 1 - 2 * ((x - b) / (b - a)) ^ 2 := by
    apply Continuous.if _ hc1 hc2
    intro y hy
    have hfr : frontier {x : ℝ | x ≤ 0.5 * (a + b)} = {0.5 * (a + b)} := frontier_Iic
    rw [hfr] at hy
    rw [Set.mem_singleton_iff] at hy
    rw [hy]
    have h1 : (0.5 * (a + b) - a) / (b - a) = 1 / 2 := by
      rw [div_eq_iff (ne_of_gt hba)]; ring
    have h2 : (0.5 * (a + b) - b) / (b - a) = -(1 / 2) := by
      rw [div_eq_iff (ne_of_gt hba)]; ring
    rw [h1, h2]
    norm_num
  have hmid : Continuous fun x : ℝ =>
      if x ≥ b then (1 : ℝ)
      else if x ≤ 0.5 * (a + b) then 2 * ((x - a) / (b - a)) ^ 2
      else 1 - 2 * ((x - b) / (b - a)) ^ 2 := by
    apply Continuous.if _ continuous_const hinner
    intro y hy
    have hfr : frontier {x : ℝ | x ≥ b} = {b} := frontier_Ici
    rw [hfr] at hy
    rw [Set.mem_singleton_iff] at hy
    rw [hy]
    rw [if_neg (not_le.mpr (by linarith : 0.5 * (a + b) < b))]
    simp
  unfold SShapedMembershipFunction
  apply Continuous.if _ continuous_const hmid
  intro y hy
  have hfr : frontier {x : ℝ | x ≤ a} = {a} := frontier_Iic
  rw [hfr] at hy
  rw [Set.mem_singleton_iff] at hy
  rw [hy]
  rw [if_neg (not_le.mpr hab), if_pos (by linarith : a ≤ 0.5 * (a + b))]
  simp

end GaussCurvatureConstraintUtils

/-! ## Claim theorems: membership function and penalty -/

namespace GaussCurvatureConstraintUtils

/-- C8: For all a < b, SShapedMembershipFunction returns 0 for x ≤ a, 1 for
x ≥ b, a quadratic ease-in on [a, (a+b)/2] and a quadratic ease-out on
[(a+b)/2, b]; it is continuous at x = a (value 0), at x = (a+b)/2
(value 0.5) and at x = b (value 1), and is monotone non-decreasing on
[a, b]. -/
theorem smf_spec (a b : ℝ) (hab : a < b) :
    (∀ x, x ≤ a → SShapedMembershipFunction x a b = 0) ∧
    (∀ x, b ≤ x → SShapedMembershipFunction x a b = 1) ∧
    (∀ x, a < x → x ≤ (a + b) / 2 →
      SShapedMembershipFunction x a b = 2 * ((x - a) / (b - a)) ^ 2) ∧
    (∀ x, (a + b) / 2 < x → x < b →
      SShapedMembershipFunction x a b = 1 - 2 * ((x - b) / (b - a)) ^ 2) ∧
    ContinuousAt (fun x => SShapedMembershipFunction x a b) a ∧
    SShapedMembershipFunction a a b = 0 ∧
    ContinuousAt (fun x => SShapedMembershipFunction x a b) ((a + b) / 2) ∧
    SShapedMembershipFunction ((a + b) / 2) a b = 1 / 2 ∧
    ContinuousAt (fun x => SShapedMembershipFunction x a b) b ∧
    SShapedMembershipFunction b a b = 1 ∧
    MonotoneOn (fun x => SShapedMembershipFunction x a b) (Set.Icc a b) := by
  refine ⟨fun x hx => smf_of_le hx,
    fun x hx => smf_of_ge (lt_of_lt_of_le hab hx) hx,
    fun x h1 h2 => smf_easeIn h1 (by linarith) (by linarith),
    fun x h1 h2 => smf_easeOut (by linarith) h2 (by linarith),
    (smf_continuous hab).continuousAt,
    smf_of_le le_rfl,
    (smf_continuous hab).continuousAt,
    ?_,
    (smf_continuous hab).continuousAt,
    smf_of_ge hab le_rfl,
    (smf_monotone hab).monotoneOn _⟩
  rw [smf_easeIn (by linarith) (by linarith) (by linarith)]
  have h1 : ((a + b) / 2 - a) / (b - a) = 1 / 2 := by
    rw [div_eq_iff (by linarith : b - a ≠ 0)]; ring
  rw [h1]
  norm_num

/-- Witness for smf_spec at a = 0, b = 1: the midpoint value is 1/2. -/
theorem smf_spec_witness :
    (0 : ℝ) < 1 ∧ SShapedMembershipFunction ((0 + 1) / 2) 0 1 = 1 / 2 :=
  ⟨by norm_num, (smf_spec 0 1 (by norm_num)).2.2.2.2.2.2.2.1⟩

end GaussCurvatureConstraintUtils

namespace GaussCurvatureConstraint

theorem foldl_add_abs (l : List ℝ) (c : ℝ) :
    l.foldl (fun acc K => acc + |K|) c = c + (l.map fun K => |K|).sum := by
  induction l generalizing c with
  | nil => simp
  | cons k l ih =>
    rw [List.foldl_cons, ih, List.map_cons, List.sum_cons]
    ring

/-- C7: Evaluate returns the mean over all points of the absolute Gauss
curvature (the sum-reduction of |K| divided by the point count); it returns
0 for an empty mesh and 0 on an all-zero curvature field of any size. -/
theorem evaluate_mean_abs_spec :
    (∀ K : List ℝ, Evaluate K = (K.map fun k => |k|).sum / (K.length : ℝ)) ∧
    Evaluate [] = 0 ∧
    (∀ n : ℕ, Evaluate (List.replicate n 0) = 0) := by
  have hmain : ∀ K : List ℝ, Evaluate K = (K.map fun k => |k|).sum / (K.length : ℝ) := by
    intro K
    unfold Evaluate
    by_cases h : K.length = 0
    · rw [if_pos h, h]
      rw [List.length_eq_zero.mp h]
      simp
    · rw [if_neg h, foldl_add_abs, zero_add]
  refine ⟨hmain, by rw [hmain]; simp, fun n => ?_⟩
  rw [hmain]
  simp

end GaussCurvatureConstraint

/-! ## Claim theorems: displacement computation and clamping -/

/-- C3: every displacement equals (-stepLength / norm) • gradient[point]
where norm = GradientNorm(): with normalization the model's Euclidean
gradient norm replaced by the strictly positive fallback 1.0 whenever the
true norm is ≤ 0 (so GradientNorm never returns a value ≤ 0, even for a
zero gradient); without normalization norm = 1 / pointCount. -/
theorem computeDisplacements_spec :
    (∀ (g : List Vec3) (dt norm : ℝ) (i : ℕ), i < g.length →
      (EulerMethodUtils.ComputeDisplacements g dt norm).getD i 0
        = (-dt / norm) • g.getD i 0) ∧
    (∀ (g : List Vec3) (n : ℕ),
      EulerMethod.GradientNorm true (DeformableSurfaceModelGradientNorm g) n
        = if 0 < DeformableSurfaceModelGradientNorm g
          then DeformableSurfaceModelGradientNorm g else 1) ∧
    (∀ (g : List Vec3) (n : ℕ), DeformableSurfaceModelGradientNorm g ≤ 0 →
      EulerMethod.GradientNorm true (DeformableSurfaceModelGradientNorm g) n = 1) ∧
    (∀ (g : List Vec3) (n : ℕ),
      0 < EulerMethod.GradientNorm true (DeformableSurfaceModelGradientNorm g) n) ∧
    (∀ (m : ℝ) (n : ℕ), EulerMethod.GradientNorm false m n = 1 / (n : ℝ)) := by
  refine ⟨?_, ?_, ?_, ?_, ?_⟩
  · intro g dt norm i hi
    unfold EulerMethodUtils.ComputeDisplacements
    simp [List.getD_eq_getElem?_getD, List.getElem?_map, List.getElem?_eq_getElem hi]
  · intro g n
    simp [EulerMethod.GradientNorm]
  · intro g n h
    simp [EulerMethod.GradientNorm, if_neg (not_lt.mpr h)]
  · intro g n
    simp only [EulerMethod.GradientNorm, if_pos]
    split_ifs with h
    · exact h
    · norm_num
  · intro m n
    simp [EulerMethod.GradientNorm]

/-- Witness for computeDisplacements_spec: a one-vector gradient with step
length 1 and norm 2 is scaled by -1/2. -/
theorem computeDisplacements_spec_witness :
    (EulerMethodUtils.ComputeDisplacements [(⟨2, 0, 0⟩ : Vec3)] 1 2).getD 0 0
      = ((-1 : ℝ) / 2) • (⟨2, 0, 0⟩ : Vec3) :=
  computeDisplacements_spec.1 [⟨2, 0, 0⟩] 1 2 0 (by decide)

theorem clamp_eq_self_of_normSq_le {mx : ℝ} {v : Vec3}
    (h : Vec3.normSq v ≤ mx * mx) :
    EulerMethodUtils.ClampDisplacement mx v = v := by
  simp only [EulerMethodUtils.ClampDisplacement]
  rw [if_neg (not_lt.mpr h)]

/-- C4: the per-point displacement clamp leaves within-bound vectors exactly
unchanged, is idempotent, scales an exceeding vector by
sqrt(max^2 / normSq) preserving its direction (a positive multiple for a
positive maximum), and the clamp pass runs exactly when forced, or
normalization is off, or the effective maximum (the configured maximum if
positive, else the step length when normalizing, else 1.0) is below the
step length. -/
theorem clampDisplacements_spec :
    (∀ (mx : ℝ) (v : Vec3), 0 ≤ mx → Vec3.norm v ≤ mx →
      EulerMethodUtils.ClampDisplacement mx v = v) ∧
    (∀ (mx : ℝ) (v : Vec3),
      EulerMethodUtils.ClampDisplacement mx (EulerMethodUtils.ClampDisplacement mx v)
        = EulerMethodUtils.ClampDisplacement mx v) ∧
    (∀ (mx : ℝ) (v : Vec3), mx * mx < Vec3.normSq v →
      EulerMethodUtils.ClampDisplacement mx v
          = Real.sqrt (mx * mx / Vec3.normSq v) • v ∧
        (0 < mx → 0 < Real.sqrt (mx * mx / Vec3.normSq v))) ∧
    (∀ (force nrm : Bool) (maxDisp step : ℝ) (d : List Vec3),
      ((if maxDisp ≤ 0 then (if nrm then step else 1) else maxDisp)
          = (if 0 < maxDisp then maxDisp else (if nrm then step else 1))) ∧
      ((force = true ∨ nrm = false ∨
          (if maxDisp ≤ 0 then (if nrm then step else 1) else maxDisp) < step) →
        EulerMethod.TruncateDisplacement force nrm maxDisp step d
          = EulerMethodUtils.ClampDisplacements
              (if maxDisp ≤ 0 then (if nrm then step else 1) else maxDisp) d) ∧
      (¬ (force = true ∨ nrm = false ∨
          (if maxDisp ≤ 0 then (if nrm then step else 1) else maxDisp) < step) →
        EulerMethod.TruncateDisplacement force nrm maxDisp step d = d)) := by
  refine ⟨?_, ?_, ?_, ?_⟩
  · intro mx v h0 hle
    apply clamp_eq_self_of_normSq_le
    have h1 := Vec3.sq_norm v
    nlinarith [Vec3.norm_nonneg' v]
  · intro mx v
    by_cases h : mx * mx < Vec3.normSq v
    · have hns : 0 < Vec3.normSq v := lt_of_le_of_lt (mul_self_nonneg mx) h
      have hk : Real.sqrt (mx * mx / Vec3.normSq v) ^ 2 = mx * mx / Vec3.normSq v :=
        Real.sq_sqrt (div_nonneg (mul_self_nonneg mx) hns.le)
      have hfirst : EulerMethodUtils.ClampDisplacement mx v
          = Real.sqrt (mx * mx / Vec3.normSq v) • v := by
        simp only [EulerMethodUtils.ClampDisplacement]
        rw [if_pos h]
      have h2 : Vec3.normSq (EulerMethodUtils.ClampDisplacement mx v) = mx * mx := by
        rw [hfirst, Vec3.normSq_smul, hk, div_mul_cancel₀]
        exact ne_of_gt hns
      exact clamp_eq_self_of_normSq_le (le_of_eq h2)
    · simp only [clamp_eq_self_of_normSq_le (not_lt.mp h)]
  · intro mx v h
    have hns : 0 < Vec3.normSq v := lt_of_le_of_lt (mul_self_nonneg mx) h
    constructor
    · simp only [EulerMethodUtils.ClampDisplacement]
      rw [if_pos h]
    · intro hmx
      exact Real.sqrt_pos.mpr (div_pos (mul_pos hmx hmx) hns)
  · intro force nrm maxDisp step d
    refine ⟨by split_ifs <;> first | rfl | linarith, ?_, ?_⟩
    · intro hcond
      simp only [EulerMethod.TruncateDisplacement]
      rw [if_pos hcond]
    · intro hcond
      simp only [EulerMethod.TruncateDisplacement]
      rw [if_neg hcond]

/-- Witness for clampDisplacements_spec: a unit vector is unchanged by a
clamp with maximum 2, and the clamp is idempotent there. -/
theorem clampDisplacements_spec_witness :
    EulerMethodUtils.ClampDisplacement 2 ⟨1, 0, 0⟩ = (⟨1, 0, 0⟩ : Vec3) :=
  clampDisplacements_spec.1 2 ⟨1, 0, 0⟩ (by norm_num)
    (by
      have : Vec3.norm ⟨1, 0, 0⟩ = 1 := by
        simp [Vec3.norm, Vec3.normSq, Vec3.dot]
      rw [this]; norm_num)

/-! ## Claim theorems: curvature gradient functor -/

theorem Vec3.smul_ne_zero' {c : ℝ} {v : Vec3} (hc : c ≠ 0) (hv : v ≠ 0) :
    c • v ≠ 0 := by
  intro h
  have h0 : Vec3.normSq (c • v) = 0 := by
    rw [h]; exact (Vec3.normSq_eq_zero_iff 0).mpr rfl
  rw [Vec3.normSq_smul] at h0
  rcases mul_eq_zero.mp h0 with hc2 | hv2
  · exact hc ((pow_eq_zero_iff (two_ne_zero)).mp hc2)
  · exact hv ((Vec3.normSq_eq_zero_iff v).mp hv2)

theorem local_getD (mesh : SurfaceMesh) (i : ℕ) (hi : i < mesh.points.length) :
    (GaussCurvatureConstraintUtils.EvaluateGradientLocal mesh).getD i 0
      = GaussCurvatureConstraintUtils.EvaluateGradientPoint mesh i := by
  unfold GaussCurvatureConstraintUtils.EvaluateGradientLocal
  simp [List.getD_eq_getElem?_getD, List.getElem?_map, List.getElem?_range hi]

namespace GaussCurvatureConstraintUtils

theorem point_eq_spec (mesh : SurfaceMesh) (p : ℕ) :
    EvaluateGradientPoint mesh p = specPointContribution mesh p := by
  simp only [EvaluateGradientPoint, specPointContribution]
  by_cases hs : mesh.status.getD p 1 = 0
  · rw [if_pos hs, if_pos hs]
  · rw [if_neg hs, if_neg hs]
    by_cases hadj : mesh.adj p = []
    · have hlen : ¬ 0 < (mesh.adj p).length := by simp [hadj]
      rw [if_neg hlen, if_pos hadj]
    · have hlen : 0 < (mesh.adj p).length := List.length_pos.mpr hadj
      rw [if_pos hlen, if_neg hadj]
      have hn : (1 / ((mesh.adj p).length : ℝ)) ≠ 0 :=
        one_div_ne_zero (Nat.cast_ne_zero.mpr hlen.ne')
      by_cases hK : mesh.gaussCurvature.getD p 0 < 0
      · rw [if_pos hK, if_pos hK]
        rw [Vec3.foldl_condAdd_map_eq, Vec3.zero_add']
        by_cases hF0 : Vec3.lsum ((mesh.adj p).map fun q =>
            if 0 < Vec3.dot (mesh.points.getD q 0 - mesh.points.getD p 0)
                (mesh.normals.getD p 0)
            then mesh.points.getD q 0 - mesh.points.getD p 0 else 0) = 0
        · rw [if_pos hF0, hF0, Vec3.smul_zero', Vec3.normalize_zero, Vec3.smul_zero']
        · rw [if_neg hF0]
          have hfne := Vec3.smul_ne_zero' hn hF0
          have hnorm : Vec3.norm ((1 / ((mesh.adj p).length : ℝ)) • _) ≠ 0 :=
            fun hh => hfne ((Vec3.norm_eq_zero_iff _).mp hh)
          rw [Vec3.normalize, if_neg hnorm]
      · rw [if_neg hK, if_neg hK]
        rw [Vec3.foldl_add_map_eq, Vec3.zero_add']
        by_cases hF0 : Vec3.lsum ((mesh.adj p).map fun q =>
            mesh.points.getD q 0 - mesh.points.getD p 0) = 0
        · rw [if_pos hF0, hF0, Vec3.smul_zero', Vec3.normalize_zero, Vec3.smul_zero']
        · rw [if_neg hF0]
          have hfne := Vec3.smul_ne_zero' hn hF0
          have hnorm : Vec3.norm ((1 / ((mesh.adj p).length : ℝ)) • _) ≠ 0 :=
            fun hh => hfne ((Vec3.norm_eq_zero_iff _).mp hh)
          rw [Vec3.normalize, if_neg hnorm]

end GaussCurvatureConstraintUtils

/-- C1: each slot of the curvature term's own gradient buffer equals the
per-point contribution exactly as the specification states it (for an active
point with neighbors, -m times the unit-normalized mean neighbor offset,
restricted to outward-side neighbors when K < 0, zero when the offset sum is
exactly zero); passive and zero-neighbor points keep their zero slot. -/
theorem evaluateGradient_pointwise_spec (mesh : SurfaceMesh) (i : ℕ)
    (hi : i < mesh.points.length) :
    ((GaussCurvatureConstraintUtils.EvaluateGradientLocal mesh).getD i 0
        = GaussCurvatureConstraintUtils.specPointContribution mesh i) ∧
    (mesh.status.getD i 1 = 0 →
      (GaussCurvatureConstraintUtils.EvaluateGradientLocal mesh).getD i 0 = 0) ∧
    (mesh.adj i = [] →
      (GaussCurvatureConstraintUtils.EvaluateGradientLocal mesh).getD i 0 = 0) := by
  have h1 := local_getD mesh i hi
  have h2 := GaussCurvatureConstraintUtils.point_eq_spec mesh i
  refine ⟨h1.trans h2, fun hs => ?_, fun hadj => ?_⟩
  · rw [h1, h2]
    unfold GaussCurvatureConstraintUtils.specPointContribution
    rw [if_pos hs]
  · rw [h1, h2]
    unfold GaussCurvatureConstraintUtils.specPointContribution
    by_cases hs : mesh.status.getD i 1 = 0
    · rw [if_pos hs]
    · rw [if_neg hs, if_pos hadj]

/-- Witness for evaluateGradient_pointwise_spec at the single-neighbor
fixture, point 0. -/
theorem evaluateGradient_pointwise_spec_witness :
    (GaussCurvatureConstraintUtils.EvaluateGradientLocal singleNeighborMesh).getD 0 0
      = GaussCurvatureConstraintUtils.specPointContribution singleNeighborMesh 0 :=
  (evaluateGradient_pointwise_spec singleNeighborMesh 0 (by decide)).1

/-- C2: the force magnitude used by EvaluateGradient is smf(|K|,0,0.2)
modulated by (1 - smf(-H,0,0.5)) when H < 0 and by smf(H,0,1) when H ≥ 0;
for an active point with exactly one neighbor, K = -0.3 and H = -0.2, whose
neighbor offset has positive dot product with the surface normal, the
contribution equals -(smf(0.3,0,0.2) * (1 - smf(0.2,0,0.5))) •
normalize(neighbor - point), and that membership constant equals 17/25. -/
theorem forceMagnitude_spec :
    (∀ K H : ℝ, H < 0 → GaussCurvatureConstraintUtils.forceMagnitude K H
        = GaussCurvatureConstraintUtils.SShapedMembershipFunction |K| 0 0.2
          * (1 - GaussCurvatureConstraintUtils.SShapedMembershipFunction (-H) 0 0.5)) ∧
    (∀ K H : ℝ, 0 ≤ H → GaussCurvatureConstraintUtils.forceMagnitude K H
        = GaussCurvatureConstraintUtils.SShapedMembershipFunction |K| 0 0.2
          * GaussCurvatureConstraintUtils.SShapedMembershipFunction H 0 1) ∧
    (∀ (mesh : SurfaceMesh) (i j : ℕ),
      mesh.status.getD i 1 ≠ 0 →
      mesh.adj i = [j] →
      mesh.gaussCurvature.getD i 0 = -0.3 →
      mesh.meanCurvature.getD i 0 = -0.2 →
      0 < Vec3.dot (mesh.points.getD j 0 - mesh.points.getD i 0)
          (mesh.normals.getD i 0) →
      GaussCurvatureConstraintUtils.EvaluateGradientPoint mesh i
        = (-(GaussCurvatureConstraintUtils.SShapedMembershipFunction 0.3 0 0.2
              * (1 - GaussCurvatureConstraintUtils.SShapedMembershipFunction 0.2 0 0.5)))
            • Vec3.normalize (mesh.points.getD j 0 - mesh.points.getD i 0)) ∧
    GaussCurvatureConstraintUtils.SShapedMembershipFunction 0.3 0 0.2
        * (1 - GaussCurvatureConstraintUtils.SShapedMembershipFunction 0.2 0 0.5)
      = 17 / 25 := by
  refine ⟨?_, ?_, ?_, ?_⟩
  · intro K H h
    simp only [GaussCurvatureConstraintUtils.forceMagnitude]
    rw [if_pos h]
  · intro K H h
    simp only [GaussCurvatureConstraintUtils.forceMagnitude]
    rw [if_neg (not_lt.mpr h)]
  · intro mesh i j hs hadj hK hH hdot
    simp only [GaussCurvatureConstraintUtils.EvaluateGradientPoint]
    rw [if_neg hs, hadj, hK, hH]
    rw [if_pos (by simp : 0 < ([j] : List ℕ).length)]
    rw [if_pos (by norm_num : (-0.3 : ℝ) < 0)]
    rw [List.foldl_cons, List.foldl_nil]
    rw [if_pos hdot, Vec3.zero_add']
    have hm : GaussCurvatureConstraintUtils.forceMagnitude (-0.3) (-0.2)
        = GaussCurvatureConstraintUtils.SShapedMembershipFunction 0.3 0 0.2
          * (1 - GaussCurvatureConstraintUtils.SShapedMembershipFunction 0.2 0 0.5) := by
      simp only [GaussCurvatureConstraintUtils.forceMagnitude]
      rw [if_pos (by norm_num : (-0.2 : ℝ) < 0), abs_neg,
        abs_of_nonneg (by norm_num : (0 : ℝ) ≤ 0.3), neg_neg]
    rw [hm]
    have hlen : (([j] : List ℕ).length : ℝ) = 1 := by simp
    rw [hlen]
    norm_num
  · rw [GaussCurvatureConstraintUtils.smf_of_ge (by norm_num) (by norm_num),
      GaussCurvatureConstraintUtils.smf_easeIn (by norm_num) (by norm_num) (by norm_num)]
    norm_num

/-- Witness for forceMagnitude_spec: the concrete single-neighbor scenario. -/
theorem forceMagnitude_spec_witness :
    GaussCurvatureConstraintUtils.EvaluateGradientPoint singleNeighborMesh 0
      = (-(GaussCurvatureConstraintUtils.SShapedMembershipFunction 0.3 0 0.2
            * (1 - GaussCurvatureConstraintUtils.SShapedMembershipFunction 0.2 0 0.5)))
          • Vec3.normalize
              (singleNeighborMesh.points.getD 1 0 - singleNeighborMesh.points.getD 0 0) :=
  forceMagnitude_spec.2.2.1 singleNeighborMesh 0 1
    (by norm_num [singleNeighborMesh])
    (by simp [singleNeighborMesh])
    (by norm_num [singleNeighborMesh])
    (by norm_num [singleNeighborMesh])
    (by norm_num [singleNeighborMesh, Vec3.dot])

/-! ## Claim theorems: optimizer loop -/

namespace EulerMethod

/-- C5: in every iteration of Run, if the realized step delta returned by the
stepping operation is at most the convergence epsilon, the iteration exits in
state DegenerateStep immediately after the step: its event trace ends at the
step event, contains no post-step model update, no normal-displacement
tracking, no value evaluation and no convergence test (whatever the stopping
criterion would have answered), and the surrounding loop performs nothing
further with any remaining fuel, so the geometry is never updated again. -/
theorem degenerateStep_priority {M : Type} (ops : ModelOps M) (cfg : Config)
    (conv : ℕ → ℝ → ℝ → List Vec3 → Bool) (i : ℕ) (s : RunState M)
    (h : (realizedStep ops cfg i s).2 ≤ cfg.epsilon) :
    (iterBody ops cfg conv i s
        = (⟨(realizedStep ops cfg i s).1, s.value, (realizedStep ops cfg i s).2⟩,
           (remeshPhase ops i s.model).2 ++ [Ev.gradEval, Ev.stepEv],
           some ExitState.DegenerateStep)) ∧
    Ev.valueEval ∉ (remeshPhase ops i s.model).2 ++ [Ev.gradEval, Ev.stepEv] ∧
    Ev.convTest ∉ (remeshPhase ops i s.model).2 ++ [Ev.gradEval, Ev.stepEv] ∧
    Ev.normalTrack ∉ (remeshPhase ops i s.model).2 ++ [Ev.gradEval, Ev.stepEv] ∧
    ((remeshPhase ops i s.model).2 ++ [Ev.gradEval, Ev.stepEv]).getLast?
        = some Ev.stepEv ∧
    (∀ fuel, runLoop ops cfg conv (fuel + 1) i s
        = (⟨(realizedStep ops cfg i s).1, s.value, (realizedStep ops cfg i s).2⟩,
           (remeshPhase ops i s.model).2 ++ [Ev.gradEval, Ev.stepEv],
           ExitState.DegenerateStep)) := by
  have hrp : ∀ e, e ∈ (remeshPhase ops i s.model).2 →
      e = Ev.remesh ∨ e = Ev.modelUpdate := by
    intro e he
    unfold remeshPhase RemeshModel at he
    by_cases h1 : 1 < i
    · rw [if_pos h1] at he
      by_cases h2 : (ops.remesh s.model).2 = true
      · rw [if_pos h2] at he
        simpa using he
      · rw [if_neg h2] at he
        simp at he
        exact Or.inl he
    · rw [if_neg h1] at he
      simp at he
  have hbody : iterBody ops cfg conv i s
      = (⟨(realizedStep ops cfg i s).1, s.value, (realizedStep ops cfg i s).2⟩,
         (remeshPhase ops i s.model).2 ++ [Ev.gradEval, Ev.stepEv],
         some ExitState.DegenerateStep) := by
    simp only [iterBody, realizedStep] at h ⊢
    rw [if_pos h]
  have hnotin : ∀ e : Ev, e ≠ Ev.remesh → e ≠ Ev.modelUpdate → e ≠ Ev.gradEval →
      e ≠ Ev.stepEv →
      e ∉ (remeshPhase ops i s.model).2 ++ [Ev.gradEval, Ev.stepEv] := by
    intro e h1 h2 h3 h4 hmem
    rcases List.mem_append.mp hmem with hin | hin
    · rcases hrp e hin with rfl | rfl
      · exact h1 rfl
      · exact h2 rfl
    · simp at hin
      rcases hin with rfl | rfl
      · exact h3 rfl
      · exact h4 rfl
  refine ⟨hbody,
    hnotin _ (by decide) (by decide) (by decide) (by decide),
    hnotin _ (by decide) (by decide) (by decide) (by decide),
    hnotin _ (by decide) (by decide) (by decide) (by decide),
    ?_, ?_⟩
  · rw [show (remeshPhase ops i s.model).2 ++ [Ev.gradEval, Ev.stepEv]
        = ((remeshPhase ops i s.model).2 ++ [Ev.gradEval]) ++ [Ev.stepEv] by
      rw [List.append_assoc]; rfl]
    exact List.getLast?_concat _
  · intro fuel
    simp only [runLoop]
    rw [hbody]

/-- Witness for degenerateStep_priority: the trivial model realizes a zero
step, below the default epsilon, so iteration 1 exits with DegenerateStep
even though the stopping criterion answers true. -/
theorem degenerateStep_priority_witness :
    (iterBody trivOps trivCfg (fun _ _ _ _ => true) 1 ⟨(), 0, 0⟩).2.2
      = some ExitState.DegenerateStep := by
  have h : (realizedStep trivOps trivCfg 1 (⟨(), 0, 0⟩ : RunState Unit)).2
      ≤ trivCfg.epsilon := by
    simp only [realizedStep, remeshPhase, trivOps, trivCfg]
    norm_num
  rw [(degenerateStep_priority trivOps trivCfg (fun _ _ _ _ => true) 1 ⟨(), 0, 0⟩ h).1]

end EulerMethod

/-! ## Claim theorems: curvature cache update -/

namespace GaussCurvatureConstraint

theorem update_of_fresh {G : Type} (o : CurvatureOracle G) (s : CurvatureCache G)
    (h1 : ¬ s.gauss.mtime < s.surfaceMTime) (h2 : ¬ s.mean.mtime < s.surfaceMTime) :
    Update o s = s := by
  unfold Update
  by_cases hn : s.numberOfPoints = 0
  · rw [if_pos hn]
  · rw [if_neg hn, if_neg (by tauto)]

/-- C6: Update recomputes, for the Gauss and mean curvature fields
independently, exactly the fields whose timestamp is older than the surface's
modification timestamp, applying exactly two neighbor-average smoothing
passes to the newly recomputed values and stamping them with a fresh
timestamp; fields that were fresh are left untouched, the geometry and its
timestamp are unchanged, and calling Update twice in a row with no geometry
change leaves both cached fields' values and timestamps unchanged (the
second call is a no-op). -/
theorem curvatureUpdate_spec {G : Type} (o : CurvatureOracle G)
    (s : CurvatureCache G) (hclock : s.surfaceMTime ≤ s.now) :
    (s.numberOfPoints ≠ 0 → s.gauss.mtime < s.surfaceMTime →
      (Update o s).gauss
        = ⟨o.smoothPass s.geom (o.smoothPass s.geom (o.computeGauss s.geom)),
           s.now + 1⟩) ∧
    (¬ s.gauss.mtime < s.surfaceMTime → (Update o s).gauss = s.gauss) ∧
    (s.numberOfPoints ≠ 0 → s.mean.mtime < s.surfaceMTime →
      (Update o s).mean
        = ⟨o.smoothPass s.geom (o.smoothPass s.geom (o.computeMean s.geom)),
           s.now + 1⟩) ∧
    (¬ s.mean.mtime < s.surfaceMTime → (Update o s).mean = s.mean) ∧
    ((Update o s).geom = s.geom ∧ (Update o s).surfaceMTime = s.surfaceMTime ∧
      (Update o s).numberOfPoints = s.numberOfPoints) ∧
    Update o (Update o s) = Update o s := by
  by_cases hn : s.numberOfPoints = 0
  · have hU : Update o s = s := by
      unfold Update
      rw [if_pos hn]
    exact ⟨fun hn' _ => absurd hn hn', fun _ => by rw [hU], fun hn' _ => absurd hn hn',
      fun _ => by rw [hU], by rw [hU]; exact ⟨rfl, rfl, rfl⟩, by rw [hU, hU]⟩
  · by_cases hst : s.gauss.mtime < s.surfaceMTime ∨ s.mean.mtime < s.surfaceMTime
    · have hU : Update o s = { s with
          gauss := if s.gauss.mtime < s.surfaceMTime then
              ⟨o.smoothPass s.geom (o.smoothPass s.geom (o.computeGauss s.geom)),
               s.now + 1⟩
            else s.gauss,
          mean := if s.mean.mtime < s.surfaceMTime then
              ⟨o.smoothPass s.geom (o.smoothPass s.geom (o.computeMean s.geom)),
               s.now + 1⟩
            else s.mean,
          now := s.now + 1 } := by
        unfold Update
        rw [if_neg hn, if_pos hst]
      have hg' : ¬ (Update o s).gauss.mtime < (Update o s).surfaceMTime := by
        rw [hU]
        by_cases hg : s.gauss.mtime < s.surfaceMTime
        · simp only [if_pos hg]
          show ¬ s.now + 1 < s.surfaceMTime
          omega
        · simp only [if_neg hg]
          exact hg
      have hm' : ¬ (Update o s).mean.mtime < (Update o s).surfaceMTime := by
        rw [hU]
        by_cases hm : s.mean.mtime < s.surfaceMTime
        · simp only [if_pos hm]
          show ¬ s.now + 1 < s.surfaceMTime
          omega
        · simp only [if_neg hm]
          exact hm
      refine ⟨fun _ hg => by rw [hU]; simp only [if_pos hg],
        fun hg => by rw [hU]; simp only [if_neg hg],
        fun _ hm => by rw [hU]; simp only [if_pos hm],
        fun hm => by rw [hU]; simp only [if_neg hm],
        by rw [hU]; exact ⟨rfl, rfl, rfl⟩,
        update_of_fresh o (Update o s) hg' hm'⟩
    · have hU : Update o s = s := by
        unfold Update
        rw [if_neg hn, if_neg hst]
      push_neg at hst
      exact ⟨fun _ hg => absurd hg (not_lt.mpr hst.1), fun _ => by rw [hU],
        fun _ hm => absurd hm (not_lt.mpr hst.2), fun _ => by rw [hU],
        by rw [hU]; exact ⟨rfl, rfl, rfl⟩, by rw [hU, hU]⟩

end GaussCurvatureConstraint

/-- Witness for curvatureUpdate_spec on the stale-Gauss fixture: the Gauss
field is recomputed and stamped with time 8, the fresh mean field is left
byte-for-byte untouched, and the second Update is a no-op. -/
theorem curvatureUpdate_spec_witness :
    (GaussCurvatureConstraint.Update trivCurvOracle staleGaussCache).gauss
        = ⟨[1], 8⟩ ∧
    (GaussCurvatureConstraint.Update trivCurvOracle staleGaussCache).mean
        = staleGaussCache.mean ∧
    GaussCurvatureConstraint.Update trivCurvOracle
        (GaussCurvatureConstraint.Update trivCurvOracle staleGaussCache)
      = GaussCurvatureConstraint.Update trivCurvOracle staleGaussCache := by
  have h := GaussCurvatureConstraint.curvatureUpdate_spec trivCurvOracle
    staleGaussCache (by decide)
  refine ⟨?_, h.2.2.2.1 (by decide), h.2.2.2.2.2⟩
  rw [h.1 (by decide) (by decide)]
  rfl

/-! ## Claim theorems: gradient forwarding scale -/

theorem getD_zipWith (f : Vec3 → Vec3 → Vec3) (l1 l2 : List Vec3) (i : ℕ)
    (h1 : i < l1.length) (h2 : i < l2.length) :
    (List.zipWith f l1 l2).getD i 0 = f (l1.getD i 0) (l2.getD i 0) := by
  induction l1 generalizing l2 i with
  | nil => simp at h1
  | cons a l1 ih =>
    cases l2 with
    | nil => simp at h2
    | cons b l2 =>
      cases i with
      | zero => simp
      | succ n =>
        simp only [List.zipWith_cons_cons, List.getD_cons_succ]
        exact ih l2 n (by simpa using h1) (by simpa using h2)

theorem halfPassive_local :
    GaussCurvatureConstraintUtils.EvaluateGradientLocal halfPassiveMesh
      = [⟨-1, 0, 0⟩, 0] := by
  have hnorm1 : Vec3.norm ⟨1, 0, 0⟩ = 1 := by
    simp [Vec3.norm, Vec3.normSq, Vec3.dot]
  have hd : halfPassiveMesh.points.getD 1 0 - halfPassiveMesh.points.getD 0 0
      = (⟨1, 0, 0⟩ : Vec3) := by
    ext
    · show (1 : ℝ) - 0 = 1; norm_num
    · show (0 : ℝ) - 0 = 0; norm_num
    · show (0 : ℝ) - 0 = 0; norm_num
  have h0 : GaussCurvatureConstraintUtils.EvaluateGradientPoint halfPassiveMesh 0
      = ⟨-1, 0, 0⟩ := by
    simp only [GaussCurvatureConstraintUtils.EvaluateGradientPoint]
    rw [show halfPassiveMesh.status.getD 0 1 = 1 from rfl,
      if_neg (one_ne_zero),
      show halfPassiveMesh.adj 0 = [1] from rfl,
      if_pos (by simp : 0 < ([1] : List ℕ).length),
      show halfPassiveMesh.gaussCurvature.getD 0 0 = 0.3 from rfl,
      show halfPassiveMesh.meanCurvature.getD 0 0 = 2 from rfl,
      if_neg (by norm_num : ¬ (0.3 : ℝ) < 0),
      List.foldl_cons, List.foldl_nil, Vec3.zero_add', hd]
    have hm : GaussCurvatureConstraintUtils.forceMagnitude 0.3 2 = 1 := by
      simp only [GaussCurvatureConstraintUtils.forceMagnitude]
      rw [if_neg (by norm_num : ¬ (2 : ℝ) < 0),
        abs_of_nonneg (by norm_num : (0 : ℝ) ≤ 0.3),
        GaussCurvatureConstraintUtils.smf_of_ge (by norm_num) (by norm_num),
        GaussCurvatureConstraintUtils.smf_of_ge (by norm_num) (by norm_num)]
      norm_num
    rw [hm]
    rw [show ((([1] : List ℕ).length : ℕ) : ℝ) = 1 by simp]
    rw [show (1 : ℝ) / 1 = 1 by norm_num, Vec3.one_smul']
    rw [Vec3.normalize, if_neg (by rw [hnorm1]; norm_num), hnorm1]
    rw [show (1 : ℝ) / 1 = 1 by norm_num, Vec3.one_smul']
    ext <;> simp
  have h1 : GaussCurvatureConstraintUtils.EvaluateGradientPoint halfPassiveMesh 1
      = 0 := by
    simp only [GaussCurvatureConstraintUtils.EvaluateGradientPoint]
    rw [show halfPassiveMesh.status.getD 1 1 = 0 from rfl]
    rw [if_pos rfl]
  unfold GaussCurvatureConstraintUtils.EvaluateGradientLocal
  rw [show halfPassiveMesh.points.length = 2 from rfl,
    show List.range 2 = [0, 1] from rfl]
  simp only [List.map_cons, List.map_nil]
  rw [h0, h1]

theorem halfPassive_activeCount :
    GaussCurvatureConstraint.activePointCount halfPassiveMesh = 1 := by
  unfold GaussCurvatureConstraint.activePointCount
  rw [show halfPassiveMesh.points.length = 2 from rfl,
    show List.range 2 = [0, 1] from rfl]
  rw [List.filter_cons, List.filter_cons, List.filter_nil]
  rw [show halfPassiveMesh.status.getD 0 1 = 1 from rfl,
    show halfPassiveMesh.status.getD 1 1 = 0 from rfl]
  norm_num

/-- C9 counterexample: on the two-point mesh with one passive point, with
caller buffer zero, step 1 and weight 1, the code's forwarding (scale
weight divided by the total point count 2) differs from the claimed
forwarding (scale weight divided by the active point count 1): the buffers
differ at the active point's slot. -/
theorem evaluateGradient_scale_counterexample :
    GaussCurvatureConstraint.EvaluateGradient halfPassiveMesh [0, 0] 1 1
      ≠ GaussCurvatureConstraint.EvaluateGradientActiveScaled halfPassiveMesh [0, 0] 1 1 := by
  intro h
  unfold GaussCurvatureConstraint.EvaluateGradient
    GaussCurvatureConstraint.EvaluateGradientActiveScaled at h
  rw [if_neg (by decide : ¬ halfPassiveMesh.points.length = 0),
    if_neg (by decide : ¬ halfPassiveMesh.points.length = 0),
    halfPassive_local, halfPassive_activeCount] at h
  unfold GaussCurvatureConstraint.baseEvaluateGradient at h
  simp only [List.zipWith_cons_cons, List.zipWith_nil_right] at h
  have hx := congrArg (fun l : List Vec3 => (l.getD 0 0).x) h
  simp only [List.getD_cons_zero, Vec3.add_x, Vec3.zero_x, Vec3.smul_x] at hx
  rw [show halfPassiveMesh.points.length = 2 from rfl] at hx
  norm_num at hx

/-- C9 (amended): after its local pass, EvaluateGradient forwards its buffer
to the base additive-accumulation step with effective scale weight / N where
N is the total point count — matching the mean normalization used in
Evaluate — and only adds into the caller-owned gradient buffer: each entry
receives its own contribution scaled by (weight / N) * step, and entries
whose per-term contribution is zero are left untouched. -/
theorem evaluateGradient_scale_amended (mesh : SurfaceMesh) (gradient : List Vec3)
    (step weight : ℝ) (hN : mesh.points.length ≠ 0) :
    (GaussCurvatureConstraint.EvaluateGradient mesh gradient step weight
      = GaussCurvatureConstraint.baseEvaluateGradient gradient step
          (weight / (mesh.points.length : ℝ))
          (GaussCurvatureConstraintUtils.EvaluateGradientLocal mesh)) ∧
    (∀ i, i < gradient.length → i < mesh.points.length →
      (GaussCurvatureConstraint.EvaluateGradient mesh gradient step weight).getD i 0
        = gradient.getD i 0
          + (weight / (mesh.points.length : ℝ) * step)
              • (GaussCurvatureConstraintUtils.EvaluateGradientLocal mesh).getD i 0) ∧
    (∀ i, i < gradient.length → i < mesh.points.length →
      (GaussCurvatureConstraintUtils.EvaluateGradientLocal mesh).getD i 0 = 0 →
      (GaussCurvatureConstraint.EvaluateGradient mesh gradient step weight).getD i 0
        = gradient.getD i 0) := by
  have hlen : (GaussCurvatureConstraintUtils.EvaluateGradientLocal mesh).length
      = mesh.points.length := by
    unfold GaussCurvatureConstraintUtils.EvaluateGradientLocal
    simp
  have h1 : GaussCurvatureConstraint.EvaluateGradient mesh gradient step weight
      = GaussCurvatureConstraint.baseEvaluateGradient gradient step
          (weight / (mesh.points.length : ℝ))
          (GaussCurvatureConstraintUtils.EvaluateGradientLocal mesh) := by
    unfold GaussCurvatureConstraint.EvaluateGradient
    rw [if_neg hN]
  have h2 : ∀ i, i < gradient.length → i < mesh.points.length →
      (GaussCurvatureConstraint.EvaluateGradient mesh gradient step weight).getD i 0
        = gradient.getD i 0
          + (weight / (mesh.points.length : ℝ) * step)
              • (GaussCurvatureConstraintUtils.EvaluateGradientLocal mesh).getD i 0 := by
    intro i hi1 hi2
    rw [h1]
    unfold GaussCurvatureConstraint.baseEvaluateGradient
    rw [getD_zipWith _ _ _ _ hi1 (by rw [hlen]; exact hi2)]
  exact ⟨h1, h2, fun i hi1 hi2 hz => by
    rw [h2 i hi1 hi2, hz, Vec3.smul_zero', Vec3.add_zero']⟩

/-- Witness for evaluateGradient_scale_amended at the two-point fixture. -/
theorem evaluateGradient_scale_amended_witness :
    GaussCurvatureConstraint.EvaluateGradient halfPassiveMesh [0, 0] 1 1
      = GaussCurvatureConstraint.baseEvaluateGradient [0, 0] 1
          (1 / (halfPassiveMesh.points.length : ℝ))
          (GaussCurvatureConstraintUtils.EvaluateGradientLocal halfPassiveMesh) :=
  (evaluateGradient_scale_amended halfPassiveMesh [0, 0] 1 1 (by decide)).1

/-! ## Claim theorems: copy construction -/

/-- C10 (evaluation at the failing input): copy-constructing an EulerMethod
from a source with 3 degrees of freedom and allocated buffers allocates
nothing — the size test compares the already-overwritten DOF count against
the source's, which can never differ — and the ensuing memcpy runs through
the new object's NULL Gradient and Displacement buffers, so the modelled
copy is undefined (none) instead of a well-defined buffer copy. -/
theorem copyAttributes_null_memcpy :
    EulerMethod.copyConstruct
        { numberOfDOFs := 3,
          gradient := some [1, 2, 3],
          displacement := some [4, 5, 6] } = none := rfl
